import Mathlib

/-!
Verification development for the freeflix download-job orchestration core.

This file gives a shallow embedding, in Lean, of the parts of the source that
the specification's testable properties talk about:

* `app/database/models/torrents.py` — the `Torrent` / `TorrentLog` /
  `Schedule` / `ScheduleLog` records, `Torrent.to_status`,
  `Torrent.update_from_status`, and the soft-delete behaviour of the shared
  `Model.delete` mixin (`app/database/mixins.py`);
* `app/torrent/manager.py` — the `TorrentManager` state (the
  `active_torrents` map plus the repository rows) and its operations
  `pause_torrent`, `resume_torrent`, `stop_torrent`, `remove_torrent`,
  `prioritize_video_files`, `get_file_progress`, `get_video_file_info`, and
  the `torrent_finished_alert` branch of `_handle_alert`;
* `app/cron/jobs.py` — the `ScheduleManager` state and `execute_schedule`,
  including its in-process and repository mutual-exclusion guards, the
  rating sort, quality selection and per-candidate error handling.

Conventions of the embedding: Python floats are modelled as `ℚ`; database
rows as lists of structures; the external engine (libtorrent) is modelled by
the observable fields of a handle that the code reads and writes; external
effects that the code only consumes (the catalog browse result, the cron
next-time computation, success of an individual job creation, the current
time) are passed in as explicit parameters.
-/

/-- Characters are all decimal digits (used by the float-literal parser). -/
def isDigits (cs : List Char) : Bool := !cs.isEmpty && cs.all (·.isDigit)

/-- Numeric value of a digit string. -/
def digitsToNat (cs : List Char) : Nat :=
  cs.foldl (fun a c => 10 * a + (c.toNat - (Char.toNat '0'))) 0

/-- Python `str.strip()` of surrounding whitespace, on the character list. -/
def stripChars (cs : List Char) : List Char :=
  ((cs.dropWhile (·.isWhitespace)).reverse.dropWhile (·.isWhitespace)).reverse

/-- Python `s.split(sep)` for a one-character separator, on character
lists; empty components are kept, as Python does. -/
def splitOnChar (sep : Char) : List Char → List (List Char)
  | [] => [[]]
  | c :: cs =>
      match splitOnChar sep cs with
      | r :: rs => if c = sep then [] :: r :: rs else (c :: r) :: rs
      | [] => if c = sep then [[], []] else [[c]]

/-- Model of Python `float(s)` on the plain decimal literals that movie
rating strings take (optional sign, digits, optional fractional part): the
exact decimal value as a rational, built with `mkRat` from the integer and
fractional digit groups. `none` models the `ValueError` that `float`
raises on a malformed string. -/
def pyFloat (s : String) : Option ℚ :=
  let cs := stripChars s.data
  let (neg, body) :=
    match cs with
    | '-' :: rest => (true, rest)
    | '+' :: rest => (false, rest)
    | _ => (false, cs)
  let signed (n : Int) : Int := if neg then -n else n
  match splitOnChar '.' body with
  | [a] =>
      if isDigits a then some (mkRat (signed (digitsToNat a)) 1) else none
  | [a, b] =>
      if (!a.isEmpty || !b.isEmpty) && a.all (·.isDigit) && b.all (·.isDigit) then
        some (mkRat (signed (digitsToNat a * 10 ^ b.length + digitsToNat b)) (10 ^ b.length))
      else none
  | _ => none

/-- Model of `float(m.rating.split('/')[0])` from `execute_schedule`
(`app/cron/jobs.py`): the sort key over a movie's rating string. -/
def ratingKey (rating : String) : Option ℚ :=
  pyFloat (String.mk ((splitOnChar '/' rating.data).headD []))

/-- The `TorrentState` enumeration from `app/models.py`. -/
inductive TorrentState where
  | queued
  | checking
  | downloading_metadata
  | downloading
  | finished
  | seeding
  | allocating
  | checking_fastresume
  | paused
  | error
  | stopped
deriving DecidableEq, Repr

/-- The `.value` of a `TorrentState` member (its database string). -/
def TorrentState.value : TorrentState → String
  | .queued => "queued"
  | .checking => "checking"
  | .downloading_metadata => "downloading_metadata"
  | .downloading => "downloading"
  | .finished => "finished"
  | .seeding => "seeding"
  | .allocating => "allocating"
  | .checking_fastresume => "checking_fastresume"
  | .paused => "paused"
  | .error => "error"
  | .stopped => "stopped"

/-- The `TorrentState(s)` enum constructor: `none` models the `ValueError`
raised on a string that is not a member value. -/
def TorrentState.ofString (s : String) : Option TorrentState :=
  if s = "queued" then some .queued
  else if s = "checking" then some .checking
  else if s = "downloading_metadata" then some .downloading_metadata
  else if s = "downloading" then some .downloading
  else if s = "finished" then some .finished
  else if s = "seeding" then some .seeding
  else if s = "allocating" then some .allocating
  else if s = "checking_fastresume" then some .checking_fastresume
  else if s = "paused" then some .paused
  else if s = "error" then some .error
  else if s = "stopped" then some .stopped
  else none

/-- The fields of the ad-hoc `meta_data` JSON map that the code reads and
writes. A `none` field models an absent key (the code only ever reads the
map through `.get`, for which an absent key and a stored null coincide). -/
structure MetaData where
  download_rate : Option ℚ := none
  upload_rate : Option ℚ := none
  total_downloaded : Option Int := none
  total_uploaded : Option Int := none
  num_peers : Option Int := none
  eta : Option Int := none
  streaming_optimized : Option Bool := none
deriving DecidableEq, Repr

/-- The `Torrent` database row (`app/database/models/torrents.py`), with the
`deleted_at` soft-delete column inherited from the `Model` mixin.
Timestamps are opaque integers. -/
structure DbTorrent where
  id : String
  movie_title : String
  quality : String
  magnet : String
  url : String
  save_path : String
  state : String
  progress : ℚ
  error_message : Option String := none
  resume_data : Option String := none
  meta_data : Option MetaData := none
  created_at : Int := 0
  updated_at : Int := 0
  deleted_at : Option Int := none
deriving DecidableEq, Repr

/-- The `TorrentStatus` pydantic model (`app/models.py`). -/
structure TorrentStatus where
  id : String
  movie_title : String
  quality : String
  state : TorrentState
  magnet : Option String := none
  progress : ℚ := 0
  download_rate : ℚ := 0
  upload_rate : ℚ := 0
  total_downloaded : Int := 0
  total_uploaded : Int := 0
  num_peers : Int := 0
  save_path : String
  created_at : Int
  updated_at : Int
  eta : Option Int := none
  error_message : Option String := none
deriving DecidableEq, Repr

/-- Model of `meta_data or \x7b\x7d` — the empty-map fallback used throughout the code. -/
def MetaData.orEmpty : Option MetaData → MetaData
  | some m => m
  | none => {}

/-- Model of `Torrent.to_status` (`app/database/models/torrents.py`): convert a
database row to a `TorrentStatus`. `none` models the `ValueError` raised by
`TorrentState(self.state)` when the stored state string is invalid. -/
def DbTorrent.to_status (t : DbTorrent) : Option TorrentStatus :=
  match TorrentState.ofString t.state with
  | none => none
  | some st =>
      let md := MetaData.orEmpty t.meta_data
      some {
        id := t.id
        movie_title := t.movie_title
        quality := t.quality
        state := st
        magnet := some t.magnet
        progress := t.progress
        download_rate := md.download_rate.getD 0
        upload_rate := md.upload_rate.getD 0
        total_downloaded := md.total_downloaded.getD 0
        total_uploaded := md.total_uploaded.getD 0
        num_peers := md.num_peers.getD 0
        save_path := t.save_path
        created_at := t.created_at
        updated_at := t.updated_at
        eta := md.eta
        error_message := t.error_message }

/-- Model of `Torrent.update_from_status` (`app/database/models/torrents.py`):
write a status snapshot back into the row (state, progress, error message,
and the metric keys of the metadata map). -/
def DbTorrent.update_from_status (t : DbTorrent) (s : TorrentStatus) : DbTorrent :=
  let md := MetaData.orEmpty t.meta_data
  { t with
    state := s.state.value
    progress := s.progress
    error_message := s.error_message
    meta_data := some { md with
      download_rate := some s.download_rate
      upload_rate := some s.upload_rate
      total_downloaded := some s.total_downloaded
      total_uploaded := some s.total_uploaded
      num_peers := some s.num_peers
      eta := s.eta } }

/-- A `TorrentLog` database row (`torrent_logs` table). The timestamp
column is omitted: no claimed behaviour reads it. -/
structure TorrentLog where
  torrent_id : String
  message : String
  level : String
  state : Option String := none
  progress : Option ℚ := none
  download_rate : Option ℚ := none
deriving DecidableEq, Repr

/-- Python `x or y` for an optional string (`None` and `""` are falsy). -/
def pyOrStr (x : Option String) (y : String) : String :=
  match x with
  | some s => if s = "" then y else s
  | none => y

/-- Python `x or y` for an optional rational (`None` and `0.0` are falsy). -/
def pyOrRat (x : Option ℚ) (y : ℚ) : ℚ :=
  match x with
  | some q => if q = 0 then y else q
  | none => y

/-- Model of `Torrent.add_log` (`app/database/models/torrents.py`): the log row it
builds, with the `state or self.state` / `progress or self.progress`
defaulting. -/
def DbTorrent.mk_log (t : DbTorrent) (message : String) (level : String)
    (state : Option String) (progress : Option ℚ) (download_rate : Option ℚ) :
    TorrentLog :=
  { torrent_id := t.id
    message := message
    level := level
    state := some (pyOrStr state t.state)
    progress := some (pyOrRat progress t.progress)
    download_rate := download_rate }

/-- One file of a torrent as reported by `torrent_info` (path and size). -/
structure FileEntry where
  path : String
  size : Int
deriving DecidableEq, Repr

/-- The observable state of a libtorrent handle that `TorrentManager`
reads and writes: metadata availability, the file table, per-file
downloaded bytes, the sequential-download flag, file priorities, the
paused flag and the save path. The handle is the engine-side object; its
internal transfer machinery is outside the embedding. -/
structure EngineHandle where
  has_metadata : Bool
  files : List FileEntry
  file_progress : List Int
  sequential_download : Bool
  file_priorities : List Nat
  paused : Bool
  save_path : String
  magnet : String
  resume_data_used : Option String
deriving DecidableEq, Repr

/-- The `TorrentManager` state (`app/torrent/manager.py`): the
`active_torrents` map (as an association list keyed by torrent id; the
per-entry metadata dict stored alongside each handle is omitted since no
claimed behaviour reads it) together with the repository rows of the
`torrents` and `torrent_logs` tables. -/
structure ManagerState where
  active_torrents : List (String × EngineHandle)
  db_torrents : List DbTorrent
  db_logs : List TorrentLog
deriving DecidableEq, Repr

/-- Model of `torrent_id in self.active_torrents` and the lookup `self.active_torrents[torrent_id]`. -/
def ManagerState.lookupHandle (s : ManagerState) (tid : String) : Option EngineHandle :=
  (s.active_torrents.find? (fun p => p.1 == tid)).map (·.2)

/-- Replace the handle stored under an id in the active map. -/
def setHandle (l : List (String × EngineHandle)) (tid : String) (h : EngineHandle) :
    List (String × EngineHandle) :=
  l.map (fun p => if p.1 == tid then (tid, h) else p)

/-- Dict assignment `self.active_torrents[torrent_id] = handle`:
replace if present, append otherwise. -/
def mapInsert (l : List (String × EngineHandle)) (tid : String) (h : EngineHandle) :
    List (String × EngineHandle) :=
  if (l.find? (fun p => p.1 == tid)).isSome then setHandle l tid h
  else l ++ [(tid, h)]

/-- Model of `self.active_torrents.pop(torrent_id)`. -/
def mapRemove (l : List (String × EngineHandle)) (tid : String) :
    List (String × EngineHandle) :=
  l.filter (fun p => !(p.1 == tid))

/-- Model of `Torrent.get_by_id` / `query.filter(id == tid).first()`: first row with
the id (the query does not filter on `deleted_at`). -/
def getById (rows : List DbTorrent) (tid : String) : Option DbTorrent :=
  rows.find? (fun t => t.id == tid)

/-- Mutate the first row with the given id (ORM object update + commit). -/
def updateFirst (rows : List DbTorrent) (tid : String) (f : DbTorrent → DbTorrent) :
    List DbTorrent :=
  match rows with
  | [] => []
  | t :: ts => if t.id == tid then f t :: ts else t :: updateFirst ts tid f

/-- The `torrent_logs` rows for one torrent — the query underlying
`TorrentLog.get_recent_logs` (its `order_by`/`limit` pagination does not
affect which torrent's rows exist, which is all the claims consult). -/
def logs_for_torrent (s : ManagerState) (tid : String) : List TorrentLog :=
  s.db_logs.filter (fun l => l.torrent_id == tid)

/-- Model of `TorrentManager._add_torrent`: build the fresh engine handle for an
attach (from resume data when present, else from the magnet), with
sequential download enabled as the code does right after adding. -/
def newHandle (magnet : String) (save_path : String) (resume : Option String) :
    EngineHandle :=
  { has_metadata := false
    files := []
    file_progress := []
    sequential_download := true
    file_priorities := []
    paused := false
    save_path := save_path
    magnet := magnet
    resume_data_used := resume }

/-- Model of `TorrentManager.pause_torrent` (`app/torrent/manager.py`). -/
def pause_torrent (s : ManagerState) (tid : String) : Bool × ManagerState :=
  match s.lookupHandle tid with
  | some h =>
      let s1 : ManagerState :=
        { s with active_torrents := setHandle s.active_torrents tid { h with paused := true } }
      match getById s1.db_torrents tid with
      | some t =>
          let t1 := { t with state := "paused" }
          (true, { s1 with
            db_torrents := updateFirst s1.db_torrents tid (fun u => { u with state := "paused" })
            db_logs := s1.db_logs ++ [t1.mk_log "Download paused" "INFO" (some "paused") none none] })
      | none => (true, s1)
  | none => (false, s)

/-- Model of `TorrentManager.resume_torrent` (`app/torrent/manager.py`): resume the
live handle when attached; otherwise re-attach only a row whose state is
exactly `paused` (the fallback query filters `state == 'paused'`), using
its persisted resume data. -/
def resume_torrent (s : ManagerState) (tid : String) : Bool × ManagerState :=
  match s.lookupHandle tid with
  | some h =>
      let s1 : ManagerState :=
        { s with active_torrents := setHandle s.active_torrents tid { h with paused := false } }
      match getById s1.db_torrents tid with
      | some t =>
          let t1 := { t with state := "downloading" }
          (true, { s1 with
            db_torrents := updateFirst s1.db_torrents tid (fun u => { u with state := "downloading" })
            db_logs := s1.db_logs ++ [t1.mk_log "Download resumed" "INFO" (some "downloading") none none] })
      | none => (true, s1)
  | none =>
      match s.db_torrents.find? (fun t => t.id == tid && t.state == "paused") with
      | some t =>
          let h := newHandle t.magnet t.save_path t.resume_data
          let t1 := { t with state := "downloading" }
          (true, { s with
            active_torrents := mapInsert s.active_torrents tid h
            db_torrents := updateFirst s.db_torrents tid (fun u => { u with state := "downloading" })
            db_logs := s.db_logs ++ [t1.mk_log "Download re-added and resumed" "INFO" (some "downloading") none none] })
      | none => (false, s)

/-- Model of `TorrentManager.stop_torrent`: request resume data, detach the handle
from the session and the active map, mark the row `stopped`. (The
asynchronous arrival of the resume-data alert is outside this call.) -/
def stop_torrent (s : ManagerState) (tid : String) : Bool × ManagerState :=
  match s.lookupHandle tid with
  | some _ =>
      let s1 : ManagerState := { s with active_torrents := mapRemove s.active_torrents tid }
      match getById s1.db_torrents tid with
      | some t =>
          let t1 := { t with state := "stopped" }
          (true, { s1 with
            db_torrents := updateFirst s1.db_torrents tid (fun u => { u with state := "stopped" })
            db_logs := s1.db_logs ++ [t1.mk_log "Download stopped" "INFO" (some "stopped") none none] })
      | none => (true, s1)
  | none => (false, s)

/-- Model of `TorrentManager.remove_torrent` (`app/torrent/manager.py`): detach the
handle when attached, then — when the row exists — append a removal log
entry and, only when `delete_files` is set, call `Model.delete`, which for
the `Torrent` model (it has a `deleted_at` column) is a soft delete that
stamps `deleted_at` and leaves the row in the table. Returns `True` in
every branch. On-disk file deletion is outside the embedding. -/
def remove_torrent (s : ManagerState) (tid : String) (delete_files : Bool) (now : Int) :
    Bool × ManagerState :=
  let s1 : ManagerState :=
    match s.lookupHandle tid with
    | some _ => { s with active_torrents := mapRemove s.active_torrents tid }
    | none => s
  match getById s1.db_torrents tid with
  | some t =>
      let msg := "Torrent removed (files " ++ (if delete_files then "deleted" else "kept") ++ ")"
      let s2 : ManagerState :=
        { s1 with db_logs := s1.db_logs ++ [t.mk_log msg "INFO" none none none] }
      if delete_files then
        (true, { s2 with
          db_torrents := updateFirst s2.db_torrents tid (fun u => { u with deleted_at := some now }) })
      else (true, s2)
  | none => (true, s1)

/-- The `torrent_finished_alert` branch of `TorrentManager._handle_alert`:
when the alert's handle is one of the active torrents, set the row's state
to `finished` and append a completion log entry whose snapshot carries
progress `100.0`. The row's own `progress` column is not assigned. -/
def handle_finished_alert (s : ManagerState) (tid : String) : ManagerState :=
  match s.lookupHandle tid with
  | some _ =>
      match getById s.db_torrents tid with
      | some _ =>
          { s with
            db_torrents := updateFirst s.db_torrents tid (fun u => { u with state := "finished" })
            db_logs := s.db_logs ++
              [{ torrent_id := tid, message := "Download completed", level := "INFO",
                 state := some "finished", progress := some 100, download_rate := none }] }
      | none => s
  | none => s

/-- The `VIDEO_EXTENSIONS` list (`app/torrent/manager.py`). -/
def VIDEO_EXTENSIONS : List String :=
  [".mp4", ".mkv", ".avi", ".mov", ".webm", ".ogv", ".wmv", ".flv"]

/-- Model of `TorrentManager._is_video_file`. -/
def is_video_file (path : String) : Bool :=
  VIDEO_EXTENSIONS.any (fun ext => path.toLower.endsWith ext)

/-- Model of `TorrentManager.prioritize_video_files` (`app/torrent/manager.py`):
refuse when the torrent is not attached or its handle has no metadata yet;
otherwise enable sequential download, set priority 7 on video files and 1
on all others, and (when the priority list is nonempty and the row exists)
record `streaming_optimized` in the row's metadata map. -/
def prioritize_video_files (s : ManagerState) (tid : String) : Bool × ManagerState :=
  match s.lookupHandle tid with
  | none => (false, s)
  | some h =>
      if !h.has_metadata then (false, s)
      else
        let h1 := { h with sequential_download := true }
        let prios := h1.files.map (fun f => if is_video_file f.path then 7 else 1)
        if !prios.isEmpty then
          let h2 := { h1 with file_priorities := prios }
          let s1 : ManagerState := { s with active_torrents := setHandle s.active_torrents tid h2 }
          match getById s1.db_torrents tid with
          | some t =>
              let md := { MetaData.orEmpty t.meta_data with streaming_optimized := some true }
              (true, { s1 with
                db_torrents := updateFirst s1.db_torrents tid (fun u => { u with meta_data := some md }) })
          | none => (true, s1)
        else
          (true, { s with active_torrents := setHandle s.active_torrents tid h1 })

/-- Model of `TorrentManager.get_file_progress`: per-file progress percentages for
an attached torrent with metadata; the empty dict otherwise. -/
def get_file_progress (s : ManagerState) (tid : String) : List (Nat × ℚ) :=
  match s.lookupHandle tid with
  | none => []
  | some h =>
      if !h.has_metadata then []
      else
        (List.range h.files.length).filterMap (fun i =>
          match h.files[i]?, (h.file_progress[i]? : Option Int) with
          | some f, some d =>
              if f.size > 0 then some (i, ((d : ℚ) / (f.size : ℚ)) * 100) else none
          | _, _ => none)

/-- The dictionary returned by `TorrentManager.get_video_file_info`. -/
structure VideoFileInfo where
  index : Nat
  path : String
  size : Int
  downloaded : Int
  progress : ℚ
  name : String
deriving DecidableEq, Repr

/-- Model of `TorrentManager.get_video_file_info`: `None` when the torrent is not
attached or has no metadata; otherwise the largest video file (strictly
larger than 0 and than every earlier video file), provided its index is
within the file-progress array. -/
def get_video_file_info (s : ManagerState) (tid : String) : Option VideoFileInfo :=
  match s.lookupHandle tid with
  | none => none
  | some h =>
      if !h.has_metadata then none
      else
        let pick := (List.range h.files.length).foldl
          (fun (acc : Option Nat × Int) i =>
            match h.files[i]? with
            | some f => if is_video_file f.path && f.size > acc.2 then (some i, f.size) else acc
            | none => acc)
          (none, 0)
        match pick.1 with
        | some idx =>
            match h.files[idx]?, (h.file_progress[idx]? : Option Int) with
            | some f, some d =>
                some { index := idx
                       path := h.save_path ++ "/" ++ f.path
                       size := f.size
                       downloaded := d
                       progress := if f.size > 0 then ((d : ℚ) / (f.size : ℚ)) * 100 else 0
                       name := ((f.path.splitOn "/").getLast?).getD f.path }
            | _, _ => none
        | none => none

/-- The `Schedule` database row (`app/database/models/torrents.py`).
`search_params` is kept opaque (it is only handed to the catalog provider,
whose response is a parameter of the embedding); timestamps are opaque
integers. -/
structure DbSchedule where
  id : String
  name : Option String := none
  cron_expression : String
  search_params : String := ""
  quality : String
  max_downloads : Nat
  enabled : Bool := true
  last_run : Option Int := none
  next_run : Int
  last_run_status : Option String := none
deriving DecidableEq, Repr

/-- The structured `results` summary stored in a schedule execution log. -/
structure ExecResults where
  movies_found : Nat
  movies_selected : Nat
  selected_titles : List String
  downloads_started : Option Nat := none
deriving DecidableEq, Repr

/-- A `ScheduleLog` database row (`schedule_logs` table). -/
structure ScheduleLog where
  schedule_id : String
  execution_time : Int
  status : String
  message : Option String := none
  results : Option ExecResults := none
deriving DecidableEq, Repr

/-- A torrent offered for a catalog movie (the `Torrent` pydantic model of
`app/models.py`, restricted to the fields `execute_schedule` reads). -/
structure MovieTorrent where
  id : String
  quality : String
  magnet : String
deriving DecidableEq, Repr

/-- A catalog candidate (the `Movie` pydantic model of `app/models.py`,
restricted to the fields `execute_schedule` reads: title, the rating
string, and the available torrents). -/
structure Movie where
  title : String
  rating : String
  torrents : List MovieTorrent
deriving DecidableEq, Repr

/-- The `ScheduleManager` state (`app/cron/jobs.py`): the in-process
`_currently_executing` set (as a duplicate-free list), the repository rows
of the `schedules` and `schedule_logs` tables, and the downloads started
through `torrent_manager.add_torrent` during firings, recorded as
(movie title, torrent id) pairs. -/
structure SchedState where
  currently_executing : List String
  schedules : List DbSchedule
  schedule_logs : List ScheduleLog
  jobs : List (String × String)
deriving DecidableEq, Repr

/-- Python `set.add`. -/
def setAdd (l : List String) (x : String) : List String :=
  if x ∈ l then l else x :: l

/-- Python `set.discard`. -/
def setDiscard (l : List String) (x : String) : List String :=
  l.filter (fun y => !(y == x))

/-- Model of `query.filter(Schedule.id == sid).first()`. -/
def getSchedule (rows : List DbSchedule) (sid : String) : Option DbSchedule :=
  rows.find? (fun t => t.id == sid)

/-- Mutate the first schedule row with the given id. -/
def updateSchedFirst (rows : List DbSchedule) (sid : String)
    (f : DbSchedule → DbSchedule) : List DbSchedule :=
  match rows with
  | [] => []
  | t :: ts => if t.id == sid then f t :: ts else t :: updateSchedFirst ts sid f

/-- The SQL predicate `last_run_status != 'running'` under three-valued
logic: a row whose status is NULL does not satisfy it. -/
def sqlStatusNotRunning : Option String → Bool
  | some s => !(s == "running")
  | none => false

/-- Model of `ScheduleManager._update_next_run` (`app/cron/jobs.py`): stamp
`last_run`, recompute `next_run` from the cron expression (the `croniter`
computation is the parameter `cronNext`), set `last_run_status`, and append
an execution log row. No-op when the schedule row is missing. -/
def update_next_run (st : SchedState) (cronNext : String → Int → Int)
    (sid : String) (last_run : Int) (status : String) : SchedState :=
  match getSchedule st.schedules sid with
  | none => st
  | some sch =>
      let next := cronNext sch.cron_expression last_run
      { st with
        schedules := updateSchedFirst st.schedules sid (fun u =>
          { u with last_run := some last_run, next_run := next, last_run_status := some status })
        schedule_logs := st.schedule_logs ++
          [{ schedule_id := sid, execution_time := last_run, status := status }] }

/-- The mutual-exclusion section of `ScheduleManager.execute_schedule`
(`app/cron/jobs.py`, the code from the `_currently_executing` check through
the conditional `last_run_status` update): refuse when the id is already in
the in-process set; otherwise add it, fetch the schedule, and attempt the
optimistic lock — a query for the row with this id whose status is not
`running` (NULL fails the SQL filter), marked `running` on success. On any
refusal the id is discarded from the in-process set again. Returns the
schedule snapshot used by the rest of the firing when the guard passes.
This section runs without an `await`, so within one process two concurrent
invocations execute it atomically one after the other. -/
def execute_guard (st : SchedState) (sid : String) : Option DbSchedule × SchedState :=
  if sid ∈ st.currently_executing then (none, st)
  else
    let st1 : SchedState := { st with currently_executing := setAdd st.currently_executing sid }
    match getSchedule st1.schedules sid with
    | none => (none, { st1 with currently_executing := setDiscard st1.currently_executing sid })
    | some sch =>
        match st1.schedules.find? (fun t => t.id == sid && sqlStatusNotRunning t.last_run_status) with
        | none => (none, { st1 with currently_executing := setDiscard st1.currently_executing sid })
        | some _ =>
            (some sch, { st1 with schedules := updateSchedFirst st1.schedules sid (fun u =>
              { u with last_run_status := some "running" }) })

/-- The sort key value used by `execute_schedule` once every rating parsed
(`float(m.rating.split('/')[0])`). -/
def movieKey (m : Movie) : ℚ := (ratingKey m.rating).getD 0

/-- Stable descending insertion: place `m` before the first element whose
key is ≤ its own (equal keys keep their original order, `m` coming first
since it originally preceded the already-sorted tail). -/
def insertByRatingDesc (m : Movie) : List Movie → List Movie
  | [] => [m]
  | x :: xs =>
      if movieKey x ≤ movieKey m then m :: x :: xs
      else x :: insertByRatingDesc m xs

/-- Model of `movies.sort(key=..., reverse=True)`: Python's `list.sort` is a stable
sort, so its result is the unique stable descending reordering by the key —
computed here by stable insertion. -/
def sortByRatingDesc : List Movie → List Movie
  | [] => []
  | m :: ms => insertByRatingDesc m (sortByRatingDesc ms)

/-- The body of the per-candidate loop of `execute_schedule`: find the
torrents of the requested quality; skip the candidate when there is none;
otherwise start a download for the first one — counted and recorded only
when job creation (`addOk`) succeeds, its exception being caught
per-candidate. -/
def download_step (quality : String) (addOk : Movie → Bool)
    (acc : Nat × SchedState) (m : Movie) : Nat × SchedState :=
  match m.torrents.filter (fun t => t.quality == quality) with
  | [] => acc
  | t :: _ =>
      if addOk m then
        (acc.1 + 1, { acc.2 with jobs := acc.2.jobs ++ [(m.title, t.id)] })
      else acc

/-- The downloads `execute_schedule` starts for a selected candidate list:
for each candidate, its first torrent of the requested quality, kept when
job creation succeeds. Characterizes the fold of `download_step`. -/
def startedOf (quality : String) (addOk : Movie → Bool) (selected : List Movie) :
    List (String × String) :=
  selected.filterMap (fun m =>
    match m.torrents.filter (fun t => t.quality == quality) with
    | [] => none
    | t :: _ => if addOk m then some (m.title, t.id) else none)

/-- Model of `ScheduleManager.execute_schedule` (`app/cron/jobs.py`). External
effects are parameters: `movies` is the catalog provider's response for the
schedule's search criteria, `addOk m` tells whether
`torrent_manager.add_torrent` succeeds for candidate `m` (its exception is
caught per-candidate), `cronNext` is the croniter next-run computation and
`now` the current time. After the guard: on an empty browse result, record
"completed (no movies found)"; if any rating string fails to parse as a
float, the sort raises and the outer handler records an error status plus
an error log and returns `False`; otherwise sort by rating descending, take
the first `max_downloads` candidates, and for each one start a download for
its first torrent of the requested quality (skipping candidates with no
match and candidates whose job creation fails), then append the summary log
and recompute the next run. -/
def execute_schedule (st : SchedState) (sid : String) (movies : List Movie)
    (addOk : Movie → Bool) (cronNext : String → Int → Int) (now : Int) :
    Bool × SchedState :=
  match execute_guard st sid with
  | (none, st1) => (false, st1)
  | (some sch, st1) =>
      if movies.isEmpty then
        (true, update_next_run st1 cronNext sid now "completed (no movies found)")
      else
        -- `movies.sort(key=...)` computes the key of every element, so the
        -- sort succeeds exactly when every rating string parses as a float.
        if movies.all (fun m => (ratingKey m.rating).isSome) then
            let selected := (sortByRatingDesc movies).take sch.max_downloads
            let fired := selected.foldl (download_step sch.quality addOk) (0, st1)
            let results : ExecResults :=
              { movies_found := movies.length
                movies_selected := selected.length
                selected_titles := selected.map (·.title)
                downloads_started := some fired.1 }
            let st3 : SchedState := { fired.2 with schedule_logs := fired.2.schedule_logs ++
              [{ schedule_id := sid, execution_time := now, status := "completed",
                 results := some results }] }
            (true, update_next_run st3 cronNext sid now "completed")
        else
            let msg := "could not convert string to float"
            let st2 := update_next_run st1 cronNext sid now ("error: " ++ msg)
            (false, { st2 with schedule_logs := st2.schedule_logs ++
              [{ schedule_id := sid, execution_time := now, status := "error", message := some msg }] })

/-! Concrete states used by witnesses and counterexamples. -/

/-- An attached handle whose metadata has not arrived yet. -/
def hNoMeta : EngineHandle :=
  { has_metadata := false, files := [], file_progress := [],
    sequential_download := true, file_priorities := [], paused := false,
    save_path := "/dl/M", magnet := "magnet:1", resume_data_used := none }

/-- An attached handle with metadata: one video file and one text file. -/
def hMeta : EngineHandle :=
  { has_metadata := true
    files := [{ path := "M/movie.mkv", size := 1000 }, { path := "M/readme.txt", size := 10 }]
    file_progress := [500, 10]
    sequential_download := false, file_priorities := [4, 4], paused := false,
    save_path := "/dl/M", magnet := "magnet:2", resume_data_used := none }

/-- A torrent row mid-download at 50%. -/
def rowT1 : DbTorrent :=
  { id := "t1", movie_title := "M", quality := "1080p", magnet := "magnet:1",
    url := "http://x", save_path := "/dl/M", state := "downloading", progress := 50 }

/-- A torrent row for the metadata-bearing handle. -/
def rowT2 : DbTorrent :=
  { id := "t2", movie_title := "N", quality := "720p", magnet := "magnet:2",
    url := "http://y", save_path := "/dl/N", state := "downloading", progress := 20 }

/-- A stopped torrent row holding persisted resume data. -/
def rowStopped : DbTorrent :=
  { id := "t3", movie_title := "S", quality := "1080p", magnet := "magnet:3",
    url := "http://z", save_path := "/dl/S", state := "stopped", progress := 70,
    resume_data := some "fastresume-blob" }

/-- A paused, detached torrent row holding persisted resume data. -/
def rowPaused : DbTorrent :=
  { id := "t4", movie_title := "P", quality := "1080p", magnet := "magnet:4",
    url := "http://w", save_path := "/dl/P", state := "paused", progress := 30,
    resume_data := some "fastresume-blob-4" }

/-- A manager state: `t1` attached without metadata, `t2` attached with
metadata, `t3` stopped and `t4` paused (both detached), and one existing
log row for `t1`. -/
def mgrEx : ManagerState :=
  { active_torrents := [("t1", hNoMeta), ("t2", hMeta)]
    db_torrents := [rowT1, rowT2, rowStopped, rowPaused]
    db_logs := [{ torrent_id := "t1", message := "Started download for M (1080p)",
                  level := "INFO", state := some "queued" }] }

/-- The status snapshot of `rowT1` (the image of `to_status` on it). -/
def statusT1 : TorrentStatus :=
  { id := "t1", movie_title := "M", quality := "1080p",
    state := TorrentState.downloading, magnet := some "magnet:1", progress := 50,
    save_path := "/dl/M", created_at := 0, updated_at := 0 }

/-- A schedule row that has completed a previous firing. -/
def schedS1 : DbSchedule :=
  { id := "s1", cron_expression := "0 3 * * *", quality := "1080p",
    max_downloads := 2, next_run := 50, last_run := some 10,
    last_run_status := some "completed" }

/-- The same schedule currently marked `running` in the repository. -/
def schedS1running : DbSchedule :=
  { schedS1 with last_run_status := some "running" }

/-- A scheduler state with one idle schedule and no history. -/
def schedExIdle : SchedState :=
  { currently_executing := [], schedules := [schedS1], schedule_logs := [], jobs := [] }

/-- A scheduler state whose only schedule is marked `running`. -/
def schedExRunning : SchedState :=
  { currently_executing := [], schedules := [schedS1running], schedule_logs := [], jobs := [] }

/-- A fixed stand-in for the croniter next-run computation. -/
def cronNextEx (expr : String) (t : Int) : Int := t + 60 + (expr.length : Int)

/-- A catalog movie with the given title, rating string and torrents. -/
def mkMovie (title rating : String) (ts : List MovieTorrent) : Movie :=
  { title := title, rating := rating, torrents := ts }

/-- Five ranked candidates of which exactly the three LOWEST-rated carry a
1080p torrent (the two top-rated only offer 720p). -/
def fiveMovies : List Movie :=
  [ mkMovie "A" "9.0/10" [{ id := "a7", quality := "720p", magnet := "ma" }]
  , mkMovie "B" "8.0/10" [{ id := "b7", quality := "720p", magnet := "mb" }]
  , mkMovie "C" "7.0/10" [{ id := "c1", quality := "1080p", magnet := "mc" }]
  , mkMovie "D" "6.0/10" [{ id := "d1", quality := "1080p", magnet := "md" }]
  , mkMovie "E" "5.0/10" [{ id := "e1", quality := "1080p", magnet := "me" }] ]

/-- Two candidates: one perfectly good, one with an unparsable rating. -/
def twoMoviesBadRating : List Movie :=
  [ mkMovie "Good" "7.5/10" [{ id := "g1", quality := "1080p", magnet := "mg" }]
  , mkMovie "Bad" "N/A" [{ id := "x1", quality := "1080p", magnet := "mx" }] ]

set_option maxHeartbeats 1000000 in
theorem TorrentState.value_ofString (s : String) (st : TorrentState)
    (h : TorrentState.ofString s = some st) : st.value = s := by
  unfold TorrentState.ofString at h
  split_ifs at h <;> simp only [Option.some.injEq, reduceCtorEq] at h <;>
    subst_vars <;> rfl

/-! Helper lemmas about the container operations of the embedding. -/

theorem mem_setAdd (l : List String) (x : String) : x ∈ setAdd l x := by
  unfold setAdd
  split
  · assumption
  · exact List.mem_cons_self x l

theorem setDiscard_not_mem (l : List String) (x : String) (h : x ∉ l) :
    setDiscard l x = l := by
  unfold setDiscard
  refine List.filter_eq_self.mpr ?_
  intro y hy
  have hne : y ≠ x := fun e => h (e ▸ hy)
  simp [hne]

theorem setDiscard_setAdd (l : List String) (x : String) (h : x ∉ l) :
    setDiscard (setAdd l x) x = l := by
  unfold setAdd
  rw [if_neg h]
  unfold setDiscard
  rw [List.filter_cons]
  have hx : (!(x == x)) = false := by simp
  rw [hx]
  simp only [Bool.false_eq_true, if_false]
  exact List.filter_eq_self.mpr (fun y hy => by
    have hne : y ≠ x := fun e => h (e ▸ hy)
    simp [hne])

theorem getById_updateFirst (tid : String) (f : DbTorrent → DbTorrent)
    (hid : ∀ u, (f u).id = u.id) :
    ∀ (rows : List DbTorrent) (t : DbTorrent), getById rows tid = some t →
      getById (updateFirst rows tid f) tid = some (f t) := by
  intro rows
  induction rows with
  | nil => intro t h; simp [getById] at h
  | cons r rs ih =>
      intro t h
      by_cases hr : (r.id == tid) = true
      · unfold getById at h
        rw [List.find?_cons, hr] at h
        simp only [Option.some.injEq] at h
        subst h
        have hft : ((f r).id == tid) = true := by rw [hid r]; exact hr
        simp only [updateFirst, if_pos hr]
        unfold getById
        rw [List.find?_cons, hft]
      · unfold getById at h
        rw [List.find?_cons] at h
        simp only [Bool.not_eq_true] at hr
        rw [hr] at h
        simp only [updateFirst]
        rw [if_neg (by simp [hr])]
        unfold getById
        rw [List.find?_cons, hr]
        exact ih t h

theorem getSchedule_updateSchedFirst (sid : String) (f : DbSchedule → DbSchedule)
    (hid : ∀ u, (f u).id = u.id) :
    ∀ (rows : List DbSchedule) (t : DbSchedule), getSchedule rows sid = some t →
      getSchedule (updateSchedFirst rows sid f) sid = some (f t) := by
  intro rows
  induction rows with
  | nil => intro t h; simp [getSchedule] at h
  | cons r rs ih =>
      intro t h
      by_cases hr : (r.id == sid) = true
      · unfold getSchedule at h
        rw [List.find?_cons, hr] at h
        simp only [Option.some.injEq] at h
        subst h
        have hft : ((f r).id == sid) = true := by rw [hid r]; exact hr
        simp only [updateSchedFirst, if_pos hr]
        unfold getSchedule
        rw [List.find?_cons, hft]
      · unfold getSchedule at h
        rw [List.find?_cons] at h
        simp only [Bool.not_eq_true] at hr
        rw [hr] at h
        simp only [updateSchedFirst]
        rw [if_neg (by simp [hr])]
        unfold getSchedule
        rw [List.find?_cons, hr]
        exact ih t h

theorem find?_running_of_unique (sid : String) :
    ∀ (rows : List DbSchedule) (sch : DbSchedule),
      rows.Pairwise (fun a b => a.id ≠ b.id) →
      getSchedule rows sid = some sch →
      rows.find? (fun t => t.id == sid && sqlStatusNotRunning t.last_run_status) =
        (if sqlStatusNotRunning sch.last_run_status then some sch else none) := by
  intro rows
  induction rows with
  | nil => intro sch _ h; simp [getSchedule] at h
  | cons r rs ih =>
      intro sch hpw hget
      rcases List.pairwise_cons.mp hpw with ⟨hhead, htail⟩
      by_cases hr : (r.id == sid) = true
      · unfold getSchedule at hget
        rw [List.find?_cons, hr] at hget
        simp only [Option.some.injEq] at hget
        subst hget
        by_cases hs : sqlStatusNotRunning r.last_run_status = true
        · rw [List.find?_cons]
          have hc : (r.id == sid && sqlStatusNotRunning r.last_run_status) = true := by
            rw [hr, hs]; rfl
          rw [hc, if_pos hs]
        · simp only [Bool.not_eq_true] at hs
          rw [List.find?_cons]
          have hc : (r.id == sid && sqlStatusNotRunning r.last_run_status) = false := by
            rw [hs]; simp
          rw [hc]
          rw [if_neg (by simp [hs])]
          refine List.find?_eq_none.mpr ?_
          intro x hx
          have hneq : x.id ≠ sid := fun e =>
            (hhead x hx) ((beq_iff_eq.mp hr).trans e.symm)
          simp [hneq]
      · unfold getSchedule at hget
        rw [List.find?_cons] at hget
        simp only [Bool.not_eq_true] at hr
        rw [hr] at hget
        rw [List.find?_cons]
        have hc : (r.id == sid && sqlStatusNotRunning r.last_run_status) = false := by
          rw [hr]; rfl
        rw [hc]
        exact ih sch htail hget

/-! Lemmas analysing `execute_guard` and the download fold. -/

theorem execute_guard_passed (st : SchedState) (sid : String) (sch : DbSchedule)
    (st1 : SchedState) (h : execute_guard st sid = (some sch, st1)) :
    sid ∉ st.currently_executing ∧
    getSchedule st.schedules sid = some sch ∧
    st1 = { st with
      currently_executing := setAdd st.currently_executing sid
      schedules := updateSchedFirst st.schedules sid
        (fun u => { u with last_run_status := some "running" }) } := by
  unfold execute_guard at h
  split at h
  next hmem => simp at h
  next hmem =>
    dsimp only at h
    split at h
    next hget => simp at h
    next s0 hget =>
      split at h
      next hfind => simp at h
      next s1 hfind =>
        simp only [Prod.mk.injEq, Option.some.injEq] at h
        exact ⟨hmem, by rw [hget, h.1], h.2.symm⟩

theorem execute_guard_second_refuses (st st1 : SchedState) (sid : String)
    (sch : DbSchedule) (h : execute_guard st sid = (some sch, st1)) :
    execute_guard st1 sid = (none, st1) := by
  obtain ⟨hmem, hget, hst1⟩ := execute_guard_passed st sid sch st1 h
  have hin : sid ∈ st1.currently_executing := by
    rw [hst1]; exact mem_setAdd st.currently_executing sid
  unfold execute_guard
  rw [if_pos hin]

theorem execute_guard_refused_marked (st : SchedState) (sid : String)
    (sch : DbSchedule)
    (hpw : st.schedules.Pairwise (fun a b => a.id ≠ b.id))
    (hget : getSchedule st.schedules sid = some sch)
    (hrun : sch.last_run_status = some "running") :
    execute_guard st sid = (none, st) := by
  by_cases hmem : sid ∈ st.currently_executing
  · unfold execute_guard
    rw [if_pos hmem]
  · have hfind := find?_running_of_unique sid st.schedules sch hpw hget
    rw [hrun] at hfind
    have hred : sqlStatusNotRunning (some "running") = false := by decide
    rw [hred] at hfind
    simp only [Bool.false_eq_true, if_false] at hfind
    unfold execute_guard
    rw [if_neg hmem]
    dsimp only
    rw [hget, hfind]
    dsimp only
    rw [setDiscard_setAdd st.currently_executing sid hmem]

theorem execute_guard_passes_clean (st : SchedState) (sid : String)
    (sch : DbSchedule)
    (hpw : st.schedules.Pairwise (fun a b => a.id ≠ b.id))
    (hmem : sid ∉ st.currently_executing)
    (hget : getSchedule st.schedules sid = some sch)
    (hok : sqlStatusNotRunning sch.last_run_status = true) :
    (execute_guard st sid).1 = some sch := by
  have hfind := find?_running_of_unique sid st.schedules sch hpw hget
  rw [if_pos hok] at hfind
  unfold execute_guard
  rw [if_neg hmem]
  dsimp only
  rw [hget, hfind]

theorem foldl_download_step (q : String) (addOk : Movie → Bool) :
    ∀ (l : List Movie) (n : Nat) (s : SchedState),
      l.foldl (download_step q addOk) (n, s) =
        (n + (startedOf q addOk l).length,
         { s with jobs := s.jobs ++ startedOf q addOk l }) := by
  intro l
  induction l with
  | nil =>
      intro n s
      simp [startedOf]
  | cons m ms ih =>
      intro n s
      rw [List.foldl_cons]
      cases hm : m.torrents.filter (fun t => t.quality == q) with
      | nil =>
          have hstep : download_step q addOk (n, s) m = (n, s) := by
            unfold download_step; rw [hm]
          rw [hstep, ih n s]
          simp [startedOf, List.filterMap_cons, hm]
      | cons t ts =>
          by_cases ha : addOk m = true
          · have hstep : download_step q addOk (n, s) m =
                (n + 1, { s with jobs := s.jobs ++ [(m.title, t.id)] }) := by
              unfold download_step; rw [hm]; dsimp only; rw [if_pos ha]
            rw [hstep, ih (n + 1) { s with jobs := s.jobs ++ [(m.title, t.id)] }]
            refine Prod.ext ?_ ?_
            · simp [startedOf, List.filterMap_cons, hm, ha]
              omega
            · simp [startedOf, List.filterMap_cons, hm, ha, List.append_assoc]
          · have hstep : download_step q addOk (n, s) m = (n, s) := by
              unfold download_step; rw [hm]; dsimp only; rw [if_neg ha]
            rw [hstep, ih n s]
            simp only [Bool.not_eq_true] at ha
            simp [startedOf, List.filterMap_cons, hm, ha]

/-! C8 — status snapshot round-trip. -/

/-- C8: converting a torrent row to a status snapshot with `to_status` and
applying that snapshot back with `update_from_status` preserves the row's
`id`, `state` and `progress` exactly (the hypothesis states that
`to_status` succeeded, i.e. the stored state string is a valid
`TorrentState` value). -/
theorem to_status_update_from_status_roundtrip (t : DbTorrent) (s : TorrentStatus)
    (h : t.to_status = some s) :
    (t.update_from_status s).id = t.id ∧
    (t.update_from_status s).state = t.state ∧
    (t.update_from_status s).progress = t.progress := by
  unfold DbTorrent.to_status at h
  cases hof : TorrentState.ofString t.state with
  | none => rw [hof] at h; simp at h
  | some st =>
      rw [hof] at h
      simp only [Option.some.injEq] at h
      subst h
      refine ⟨rfl, ?_, rfl⟩
      exact TorrentState.value_ofString t.state st hof

/-- Witness for the round-trip theorem at a concrete downloading row. -/
theorem to_status_update_from_status_roundtrip_witness :
    rowT1.to_status = some statusT1 ∧
    ((rowT1.update_from_status statusT1).id = rowT1.id ∧
     (rowT1.update_from_status statusT1).state = rowT1.state ∧
     (rowT1.update_from_status statusT1).progress = rowT1.progress) :=
  ⟨by decide, to_status_update_from_status_roundtrip rowT1 statusT1 (by decide)⟩

/-! C9 — removing an unknown job id. -/

/-- C9: `remove_torrent` on an id that is neither in the in-memory attached
map nor in the repository returns `True` (not a not-found failure) and
leaves the whole manager state unchanged. -/
theorem remove_torrent_unknown_id (s : ManagerState) (tid : String)
    (df : Bool) (now : Int)
    (hact : s.lookupHandle tid = none)
    (hdb : getById s.db_torrents tid = none) :
    remove_torrent s tid df now = (true, s) := by
  unfold remove_torrent
  rw [hact]
  dsimp only
  rw [hdb]

/-- Witness: removing the absent id `"missing"` from the concrete manager
state is a no-op that reports success. -/
theorem remove_torrent_unknown_id_witness :
    remove_torrent mgrEx "missing" false 9 = (true, mgrEx) :=
  remove_torrent_unknown_id mgrEx "missing" false 9 (by decide) (by decide)

/-! C10 — file queries on detached or metadata-less jobs. -/

/-- C10: for a job id that is not in the attached map (in particular for
jobs that exist only as repository rows: paused, stopped, errored or
finished), and likewise for an attached job whose handle has no metadata
yet, `get_video_file_info` returns `none` and `get_file_progress` returns
the empty map; both are pure reads of the embedding and touch no state. -/
theorem file_queries_detached_or_no_metadata (s : ManagerState) (tid : String)
    (h : s.lookupHandle tid = none ∨
         ∃ hdl, s.lookupHandle tid = some hdl ∧ hdl.has_metadata = false) :
    get_video_file_info s tid = none ∧ get_file_progress s tid = [] := by
  rcases h with h | ⟨hdl, h, hm⟩
  · exact ⟨by simp [get_video_file_info, h], by simp [get_file_progress, h]⟩
  · exact ⟨by simp [get_video_file_info, h, hm], by simp [get_file_progress, h, hm]⟩

/-- Witness: `t3` exists in the repository (stopped) but is detached, so
both file queries return nothing on the concrete state. -/
theorem file_queries_detached_or_no_metadata_witness :
    get_video_file_info mgrEx "t3" = none ∧ get_file_progress mgrEx "t3" = [] :=
  file_queries_detached_or_no_metadata mgrEx "t3" (Or.inl (by decide))

/-! C6 — streaming prioritization contract. -/

/-- C6: for an attached job, `prioritize_video_files` (the
`PrioritizeStreaming` operation): (a) when the handle has no metadata yet
it returns `False` and leaves the whole state — in particular the job's
stored record — unchanged; (b) once metadata is available (and the torrent
has at least one file, as any real metadata does, and the row exists) it
returns `True`, enables sequential download, gives every video-extension
file priority 7 and every other file priority 1 — strictly lower — and
records `streaming_optimized` in the row's metadata map. -/
theorem prioritize_streaming_contract (s : ManagerState) (tid : String)
    (hdl : EngineHandle) (h : s.lookupHandle tid = some hdl) :
    (hdl.has_metadata = false → prioritize_video_files s tid = (false, s)) ∧
    (hdl.has_metadata = true → hdl.files ≠ [] →
      ∀ t, getById s.db_torrents tid = some t →
        (prioritize_video_files s tid).1 = true ∧
        (prioritize_video_files s tid).2.active_torrents =
          setHandle s.active_torrents tid
            { hdl with
              sequential_download := true
              file_priorities :=
                hdl.files.map (fun f => if is_video_file f.path then 7 else 1) } ∧
        (∀ (i j : Nat) (fi fj : FileEntry), hdl.files[i]? = some fi → hdl.files[j]? = some fj →
           is_video_file fi.path = true → is_video_file fj.path = false →
           ∃ pi pj,
             (hdl.files.map (fun f => if is_video_file f.path then 7 else 1))[i]? = some pi ∧
             (hdl.files.map (fun f => if is_video_file f.path then 7 else 1))[j]? = some pj ∧
             pj < pi) ∧
        getById (prioritize_video_files s tid).2.db_torrents tid =
          some ({ t with
                  meta_data := some ({ MetaData.orEmpty t.meta_data with
                                       streaming_optimized := some true }) })) := by
  constructor
  · intro hm
    simp [prioritize_video_files, h, hm]
  · intro hm hne t ht
    have hprio : ∀ (i j : Nat) (fi fj : FileEntry), hdl.files[i]? = some fi → hdl.files[j]? = some fj →
        is_video_file fi.path = true → is_video_file fj.path = false →
        ∃ pi pj,
          (hdl.files.map (fun f => if is_video_file f.path then 7 else 1))[i]? = some pi ∧
          (hdl.files.map (fun f => if is_video_file f.path then 7 else 1))[j]? = some pj ∧
          pj < pi := by
      intro i j fi fj hfi hfj hvi hvj
      refine ⟨7, 1, ?_, ?_, by omega⟩
      · rw [List.getElem?_map, hfi]
        simp [hvi]
      · rw [List.getElem?_map, hfj]
        simp [hvj]
    have hpe : ((hdl.files.map (fun f => if is_video_file f.path then 7 else 1)).isEmpty) = false := by
      cases hfl : hdl.files with
      | nil => exact absurd hfl hne
      | cons a as => rfl
    unfold prioritize_video_files
    rw [h]
    dsimp only
    rw [hm]
    simp only [Bool.not_true, Bool.false_eq_true, if_false]
    rw [hpe]
    simp only [Bool.not_false, if_true]
    rw [ht]
    dsimp only
    refine ⟨rfl, rfl, hprio, ?_⟩
    exact getById_updateFirst tid
      (fun u => { u with
                  meta_data := some ({ MetaData.orEmpty t.meta_data with
                                       streaming_optimized := some true }) })
      (fun u => rfl) s.db_torrents t ht

/-- Witness: on the concrete manager state, prioritization succeeds for the
metadata-bearing `t2` and is refused without side effects for the
metadata-less `t1`. -/
theorem prioritize_streaming_contract_witness :
    (prioritize_video_files mgrEx "t2").1 = true ∧
    prioritize_video_files mgrEx "t1" = (false, mgrEx) :=
  ⟨((prioritize_streaming_contract mgrEx "t2" hMeta (by decide)).2
      (by decide) (by decide) rowT2 (by decide)).1,
   (prioritize_streaming_contract mgrEx "t1" hNoMeta (by decide)).1 (by decide)⟩

/-! C3 — the finished event and the stored progress field. -/

/-- C3 counterexample: on the concrete state, the torrent `t1` is stored at
progress 50 while downloading; after the engine's finished event its record
has state `finished` with progress still 50 < 100 — the stored progress is
not forced to 100, contradicting the claim. -/
theorem finished_event_progress_counterexample :
    (getById mgrEx.db_torrents "t1").map (fun t => (t.state, t.progress)) =
      some ("downloading", (50 : ℚ)) ∧
    (getById (handle_finished_alert mgrEx "t1").db_torrents "t1").map
        (fun t => (t.state, t.progress)) = some ("finished", (50 : ℚ)) ∧
    (50 : ℚ) < 100 := by decide

/-- C3 amended: the finished-event handler sets the record's state to
`finished` and appends a completion log entry whose snapshot carries
progress 100, but it leaves the record's own `progress` column unchanged —
so a record with state `finished` and `progress < 100` is reachable. -/
theorem handle_finished_alert_amended (s : ManagerState) (tid : String)
    (hdl : EngineHandle) (t : DbTorrent)
    (ha : s.lookupHandle tid = some hdl)
    (ht : getById s.db_torrents tid = some t) :
    getById (handle_finished_alert s tid).db_torrents tid =
      some ({ t with state := "finished" }) ∧
    ({ t with state := "finished" } : DbTorrent).progress = t.progress ∧
    (handle_finished_alert s tid).db_logs = s.db_logs ++
      [{ torrent_id := tid, message := "Download completed", level := "INFO",
         state := some "finished", progress := some 100, download_rate := none }] := by
  unfold handle_finished_alert
  rw [ha]
  dsimp only
  rw [ht]
  dsimp only
  refine ⟨?_, rfl, rfl⟩
  exact getById_updateFirst tid (fun u => { u with state := "finished" })
    (fun u => rfl) s.db_torrents t ht

/-- Witness for the amended finished-event theorem at the concrete state. -/
theorem handle_finished_alert_amended_witness :
    getById (handle_finished_alert mgrEx "t1").db_torrents "t1" =
      some ({ rowT1 with state := "finished" }) ∧
    ({ rowT1 with state := "finished" } : DbTorrent).progress = rowT1.progress ∧
    (handle_finished_alert mgrEx "t1").db_logs = mgrEx.db_logs ++
      [{ torrent_id := "t1", message := "Download completed", level := "INFO",
         state := some "finished", progress := some 100, download_rate := none }] :=
  handle_finished_alert_amended mgrEx "t1" hNoMeta rowT1 (by decide) (by decide)

/-! C4 — `remove_torrent` never hard-deletes the repository row. -/

/-- C4 (code bug): evaluating `remove_torrent` at the failing input. With
`delete_files = False` the repository row of `t1` survives untouched
(`deleted_at` still null) and its log listing is non-empty (a fresh
"Torrent removed" entry is even appended); with `delete_files = True` the
row is merely soft-deleted (`deleted_at` stamped, row still found by
`get_by_id`) and the logs are never cascade-deleted — in both cases the
call reports success. -/
theorem remove_torrent_keeps_row_and_logs :
    (remove_torrent mgrEx "t1" false 7).1 = true ∧
    (getById (remove_torrent mgrEx "t1" false 7).2.db_torrents "t1").map
        (fun t => t.deleted_at) = some none ∧
    logs_for_torrent (remove_torrent mgrEx "t1" false 7).2 "t1" ≠ [] ∧
    (remove_torrent mgrEx "t1" true 7).1 = true ∧
    (getById (remove_torrent mgrEx "t1" true 7).2.db_torrents "t1").map
        (fun t => t.deleted_at) = some (some 7) ∧
    logs_for_torrent (remove_torrent mgrEx "t1" true 7).2 "t1" ≠ [] := by decide

/-! C5 — resume source states. -/

/-- C5 counterexample: `t3` is a repository row in state `stopped` with
persisted resume data and no attached handle, yet `resume_torrent` returns
`False` and re-attaches nothing — the claim says it returns `True`. -/
theorem resume_stopped_returns_false :
    (getById mgrEx.db_torrents "t3").map (fun t => (t.state, t.resume_data)) =
      some ("stopped", some "fastresume-blob") ∧
    mgrEx.lookupHandle "t3" = none ∧
    resume_torrent mgrEx "t3" = (false, mgrEx) := by decide

theorem lookupHandle_mapInsert_none (l : List (String × EngineHandle))
    (tid : String) (h : EngineHandle)
    (hl : l.find? (fun p => p.1 == tid) = none) :
    ((mapInsert l tid h).find? (fun p => p.1 == tid)).map (·.2) = some h := by
  unfold mapInsert
  rw [hl]
  simp only [Option.isSome_none, Bool.false_eq_true, if_false]
  rw [List.find?_append, hl]
  simp

/-- C5 amended: the detached re-attach path of `resume_torrent` applies
only to rows whose state is exactly `paused`: for such a row it returns
`True` and re-attaches a fresh handle built from the row's magnet, save
path and persisted resume data; for a detached id with no paused row
(stopped, errored, finished, …) it returns `False` and changes nothing.
`pause_torrent` and `stop_torrent` succeed exactly when the id is attached. -/
theorem lifecycle_source_state_contract (s : ManagerState) (tid : String) :
    (∀ t : DbTorrent, s.lookupHandle tid = none →
       s.db_torrents.find? (fun u => u.id == tid && u.state == "paused") = some t →
       (resume_torrent s tid).1 = true ∧
       (resume_torrent s tid).2.lookupHandle tid =
         some (newHandle t.magnet t.save_path t.resume_data)) ∧
    (s.lookupHandle tid = none →
       s.db_torrents.find? (fun u => u.id == tid && u.state == "paused") = none →
       resume_torrent s tid = (false, s)) ∧
    (pause_torrent s tid).1 = (s.lookupHandle tid).isSome ∧
    (stop_torrent s tid).1 = (s.lookupHandle tid).isSome := by
  refine ⟨?_, ?_, ?_, ?_⟩
  · intro t h0 hfind
    have hl : s.active_torrents.find? (fun p => p.1 == tid) = none := by
      unfold ManagerState.lookupHandle at h0
      exact Option.map_eq_none'.mp h0
    unfold resume_torrent
    rw [h0]
    dsimp only
    rw [hfind]
    dsimp only
    refine ⟨rfl, ?_⟩
    unfold ManagerState.lookupHandle
    exact lookupHandle_mapInsert_none s.active_torrents tid
      (newHandle t.magnet t.save_path t.resume_data) hl
  · intro h0 hfind
    unfold resume_torrent
    rw [h0]
    dsimp only
    rw [hfind]
  · cases hl : s.lookupHandle tid with
    | none => simp [pause_torrent, hl]
    | some hd =>
        cases hq : getById s.db_torrents tid with
        | none => simp [pause_torrent, hl, hq]
        | some t0 => simp [pause_torrent, hl, hq]
  · cases hl : s.lookupHandle tid with
    | none => simp [stop_torrent, hl]
    | some hd =>
        cases hq : getById s.db_torrents tid with
        | none => simp [stop_torrent, hl, hq]
        | some t0 => simp [stop_torrent, hl, hq]

/-- Witness: on the concrete state, the paused detached row `t4` resumes
with its resume data and `pause_torrent` succeeds on the attached `t1`. -/
theorem lifecycle_source_state_contract_witness :
    ((resume_torrent mgrEx "t4").1 = true ∧
     (resume_torrent mgrEx "t4").2.lookupHandle "t4" =
       some (newHandle rowPaused.magnet rowPaused.save_path rowPaused.resume_data)) ∧
    (pause_torrent mgrEx "t1").1 = (mgrEx.lookupHandle "t1").isSome :=
  ⟨(lifecycle_source_state_contract mgrEx "t4").1 rowPaused (by decide) (by decide),
   (lifecycle_source_state_contract mgrEx "t1").2.2.1⟩

/-! Further lemmas about `update_next_run`. -/

theorem update_next_run_jobs (st : SchedState) (cronNext : String → Int → Int)
    (sid : String) (lr : Int) (status : String) :
    (update_next_run st cronNext sid lr status).jobs = st.jobs := by
  unfold update_next_run
  split <;> rfl

theorem update_next_run_eq (st : SchedState) (cronNext : String → Int → Int)
    (sid : String) (lr : Int) (status : String) (sch : DbSchedule)
    (h : getSchedule st.schedules sid = some sch) :
    update_next_run st cronNext sid lr status = { st with
      schedules := updateSchedFirst st.schedules sid (fun u =>
        { u with last_run := some lr, next_run := cronNext sch.cron_expression lr,
                 last_run_status := some status })
      schedule_logs := st.schedule_logs ++
        [{ schedule_id := sid, execution_time := lr, status := status }] } := by
  unfold update_next_run
  rw [h]

/-! C1 — the mutual-exclusion guard of `execute_schedule`. -/

/-- C1: when a schedule id is already marked executing — in the in-process
set, or with `last_run_status = "running"` in its repository row —
`execute_schedule` returns `False` and the state is left exactly as it was
(no job, no schedule log, no row change). Moreover the guard section admits
at most one of two interleaved invocations: after one invocation passes the
guard, a second invocation refuses without side effects; and from a clean
state (id not executing, row status a non-`running` string) a single
invocation does pass the guard. Primary-key uniqueness of schedule ids is
the `Pairwise` hypothesis. -/
theorem execute_schedule_mutual_exclusion (st : SchedState) (sid : String)
    (movies : List Movie) (addOk : Movie → Bool) (cronNext : String → Int → Int)
    (now : Int) (hpw : st.schedules.Pairwise (fun a b => a.id ≠ b.id)) :
    ((sid ∈ st.currently_executing ∨
        ∃ sch, getSchedule st.schedules sid = some sch ∧
          sch.last_run_status = some "running") →
      execute_schedule st sid movies addOk cronNext now = (false, st)) ∧
    (∀ sch st1, execute_guard st sid = (some sch, st1) →
      execute_guard st1 sid = (none, st1)) ∧
    (∀ sch, sid ∉ st.currently_executing →
      getSchedule st.schedules sid = some sch →
      sqlStatusNotRunning sch.last_run_status = true →
      (execute_guard st sid).1 = some sch) := by
  refine ⟨?_, ?_, ?_⟩
  · rintro (hmem | ⟨sch, hget, hrun⟩)
    · have hg : execute_guard st sid = (none, st) := by
        unfold execute_guard
        rw [if_pos hmem]
      unfold execute_schedule
      rw [hg]
    · have hg := execute_guard_refused_marked st sid sch hpw hget hrun
      unfold execute_schedule
      rw [hg]
  · intro sch st1 hg
    exact execute_guard_second_refuses st st1 sid sch hg
  · intro sch hmem hget hok
    exact execute_guard_passes_clean st sid sch hpw hmem hget hok

/-- Witness: on concrete states — a schedule marked `running` refuses with
no state change; from the idle state the guard passes, and a second
interleaved invocation then refuses. -/
theorem execute_schedule_mutual_exclusion_witness :
    execute_schedule schedExRunning "s1" [] (fun _ => true) cronNextEx 100 =
      (false, schedExRunning) ∧
    execute_guard ({ schedExRunning with currently_executing := ["s1"] }) "s1" =
      (none, { schedExRunning with currently_executing := ["s1"] }) ∧
    (execute_guard schedExIdle "s1").1 = some schedS1 :=
  ⟨(execute_schedule_mutual_exclusion schedExRunning "s1" [] (fun _ => true)
      cronNextEx 100 (by simp [schedExRunning])).1
      (Or.inr ⟨schedS1running, by decide, by decide⟩),
   (execute_schedule_mutual_exclusion schedExIdle "s1" [] (fun _ => true)
      cronNextEx 100 (by simp [schedExIdle])).2.1 schedS1
      ({ schedExRunning with currently_executing := ["s1"] }) (by decide),
   (execute_schedule_mutual_exclusion schedExIdle "s1" [] (fun _ => true)
      cronNextEx 100 (by simp [schedExIdle])).2.2 schedS1 (by decide) (by decide) (by decide)⟩

/-! C2 — candidate ranking, truncation and quality matching. -/

/-- C2 counterexample: a schedule with `max_downloads = 2` fires over 5
ranked candidates of which exactly 3 carry a 1080p torrent — but the two
top-rated candidates do not, and because the code truncates to the top
`max_downloads` BEFORE filtering by quality, zero jobs are created instead
of the claimed two (for the two highest-rated quality-matching candidates). -/
theorem schedule_quality_selection_counterexample :
    fiveMovies.length = 5 ∧
    (fiveMovies.filter (fun m => m.torrents.any (fun t => t.quality == "1080p"))).length = 3 ∧
    schedS1.max_downloads = 2 ∧ schedS1.quality = "1080p" ∧
    (execute_schedule schedExIdle "s1" fiveMovies (fun _ => true) cronNextEx 100).1 = true ∧
    (execute_schedule schedExIdle "s1" fiveMovies (fun _ => true) cronNextEx 100).2.jobs = [] := by
  decide

/-- C2 amended: during a firing the candidates are sorted by rating
descending and the top `max_downloads` are selected BEFORE quality
filtering; a job is then created exactly for each selected candidate that
has a torrent of the requested quality (and whose creation succeeds), so at
most `max_downloads` jobs are created, but they are the quality-matching
candidates among the top `max_downloads` of ALL candidates — possibly fewer
than `max_downloads` even when enough lower-ranked candidates match. -/
theorem execute_schedule_selection (st : SchedState) (sid : String)
    (movies : List Movie) (addOk : Movie → Bool) (cronNext : String → Int → Int)
    (now : Int) (sch : DbSchedule) (st1 : SchedState)
    (hg : execute_guard st sid = (some sch, st1))
    (hne : movies ≠ [])
    (hr : movies.all (fun m => (ratingKey m.rating).isSome) = true) :
    (execute_schedule st sid movies addOk cronNext now).1 = true ∧
    (execute_schedule st sid movies addOk cronNext now).2.jobs =
      st.jobs ++ startedOf sch.quality addOk
        ((sortByRatingDesc movies).take sch.max_downloads) ∧
    (startedOf sch.quality addOk
        ((sortByRatingDesc movies).take sch.max_downloads)).length ≤ sch.max_downloads := by
  obtain ⟨hmem, hget, hst1⟩ := execute_guard_passed st sid sch st1 hg
  have hie : movies.isEmpty = false := by
    cases movies with
    | nil => exact absurd rfl hne
    | cons a as => rfl
  have hlen : (startedOf sch.quality addOk
      ((sortByRatingDesc movies).take sch.max_downloads)).length ≤ sch.max_downloads := by
    unfold startedOf
    refine le_trans (List.length_filterMap_le _ _) ?_
    rw [List.length_take]
    exact min_le_left _ _
  refine ⟨?_, ?_, hlen⟩
  · unfold execute_schedule
    rw [hg]
    dsimp only
    rw [hie]
    simp only [Bool.false_eq_true, if_false]
    rw [hr]
    simp only [if_true]
  · unfold execute_schedule
    rw [hg]
    dsimp only
    rw [hie]
    simp only [Bool.false_eq_true, if_false]
    rw [hr]
    simp only [if_true]
    rw [update_next_run_jobs]
    rw [foldl_download_step sch.quality addOk
      ((sortByRatingDesc movies).take sch.max_downloads) 0 st1]
    rw [hst1]

/-- Witness: the amended selection theorem instantiated on the concrete
idle schedule and the five ranked candidates. -/
theorem execute_schedule_selection_witness :
    (execute_schedule schedExIdle "s1" fiveMovies (fun _ => true) cronNextEx 100).1 = true ∧
    (execute_schedule schedExIdle "s1" fiveMovies (fun _ => true) cronNextEx 100).2.jobs =
      schedExIdle.jobs ++ startedOf schedS1.quality (fun _ => true)
        ((sortByRatingDesc fiveMovies).take schedS1.max_downloads) ∧
    (startedOf schedS1.quality (fun _ => true)
        ((sortByRatingDesc fiveMovies).take schedS1.max_downloads)).length ≤
      schedS1.max_downloads :=
  execute_schedule_selection schedExIdle "s1" fiveMovies (fun _ => true) cronNextEx 100
    schedS1 ({ schedExRunning with currently_executing := ["s1"] })
    (by decide) (by decide) (by decide)

/-! C7 — failure containment during a firing. -/

/-- C7 counterexample: both candidates carry a 1080p torrent, but one has
the unparsable rating "N/A"; the whole firing aborts through the outer
error handler — no job is created even for the good candidate and the
schedule ends in an error status — contradicting the claim that a
malformed rating is caught per-candidate. -/
theorem rating_failure_aborts_firing_counterexample :
    ratingKey "N/A" = none ∧
    (twoMoviesBadRating.filter (fun m => m.torrents.any (fun t => t.quality == "1080p"))).length = 2 ∧
    (execute_schedule schedExIdle "s1" twoMoviesBadRating (fun _ => true) cronNextEx 100).1 = false ∧
    (execute_schedule schedExIdle "s1" twoMoviesBadRating (fun _ => true) cronNextEx 100).2.jobs = [] ∧
    (getSchedule (execute_schedule schedExIdle "s1" twoMoviesBadRating
        (fun _ => true) cronNextEx 100).2.schedules "s1").map (fun u => u.last_run_status) =
      some (some ("error: " ++ "could not convert string to float")) := by decide

/-- C7 amended: per-candidate failure containment holds for a missing
quality match and for a failing job creation — when every rating parses,
the firing completes (`True`) with the summary and completion log entries
regardless of how many candidates were skipped — but NOT for rating
parsing: the keys are computed during the global sort, outside the
per-candidate `try`, so one malformed rating aborts the whole firing via
the outer handler, which records an error status log pair (and `False`)
while creating no job. -/
theorem per_candidate_failure_containment (st : SchedState) (sid : String)
    (movies : List Movie) (addOk : Movie → Bool) (cronNext : String → Int → Int)
    (now : Int) (sch : DbSchedule) (st1 : SchedState)
    (hg : execute_guard st sid = (some sch, st1))
    (hne : movies ≠ []) :
    (movies.all (fun m => (ratingKey m.rating).isSome) = true →
      (execute_schedule st sid movies addOk cronNext now).1 = true ∧
      (execute_schedule st sid movies addOk cronNext now).2.schedule_logs =
        st.schedule_logs ++
          [{ schedule_id := sid, execution_time := now, status := "completed",
             results := some
               { movies_found := movies.length
                 movies_selected := ((sortByRatingDesc movies).take sch.max_downloads).length
                 selected_titles :=
                   ((sortByRatingDesc movies).take sch.max_downloads).map (fun m => m.title)
                 downloads_started := some (startedOf sch.quality addOk
                   ((sortByRatingDesc movies).take sch.max_downloads)).length } },
           { schedule_id := sid, execution_time := now, status := "completed" }]) ∧
    (movies.all (fun m => (ratingKey m.rating).isSome) = false →
      (execute_schedule st sid movies addOk cronNext now).1 = false ∧
      (execute_schedule st sid movies addOk cronNext now).2.jobs = st.jobs ∧
      (execute_schedule st sid movies addOk cronNext now).2.schedule_logs =
        st.schedule_logs ++
          [{ schedule_id := sid, execution_time := now,
             status := "error: " ++ "could not convert string to float" },
           { schedule_id := sid, execution_time := now, status := "error",
             message := some "could not convert string to float" }]) := by
  obtain ⟨hmem, hget, hst1⟩ := execute_guard_passed st sid sch st1 hg
  have hie : movies.isEmpty = false := by
    cases movies with
    | nil => exact absurd rfl hne
    | cons a as => rfl
  have hget1 : getSchedule st1.schedules sid =
      some ({ sch with last_run_status := some "running" }) := by
    rw [hst1]
    exact getSchedule_updateSchedFirst sid
      (fun u => { u with last_run_status := some "running" }) (fun u => rfl)
      st.schedules sch hget
  constructor
  · intro hr
    unfold execute_schedule
    rw [hg]
    dsimp only
    rw [hie]
    simp only [Bool.false_eq_true, if_false]
    rw [hr]
    simp only [if_true]
    rw [foldl_download_step sch.quality addOk
      ((sortByRatingDesc movies).take sch.max_downloads) 0 st1]
    unfold update_next_run
    dsimp only
    rw [hget1]
    dsimp only
    refine ⟨by trivial, ?_⟩
    rw [hst1]
    dsimp only
    simp [List.append_assoc]
  · intro hr
    unfold execute_schedule
    rw [hg]
    dsimp only
    rw [hie]
    simp only [Bool.false_eq_true, if_false]
    rw [hr]
    simp only [Bool.false_eq_true, if_false]
    unfold update_next_run
    dsimp only
    rw [hget1]
    dsimp only
    refine ⟨by trivial, ?_, ?_⟩
    · rw [hst1]
    · rw [hst1]
      dsimp only
      simp [List.append_assoc]

/-- Witness: a firing whose every job creation fails still completes
(`True`); a firing with one malformed rating aborts (`False`). -/
theorem per_candidate_failure_containment_witness :
    (execute_schedule schedExIdle "s1" fiveMovies (fun _ => false) cronNextEx 100).1 = true ∧
    (execute_schedule schedExIdle "s1" twoMoviesBadRating (fun _ => true) cronNextEx 100).1 = false :=
  ⟨((per_candidate_failure_containment schedExIdle "s1" fiveMovies (fun _ => false)
      cronNextEx 100 schedS1 ({ schedExRunning with currently_executing := ["s1"] })
      (by decide) (by decide)).1 (by decide)).1,
   ((per_candidate_failure_containment schedExIdle "s1" twoMoviesBadRating (fun _ => true)
      cronNextEx 100 schedS1 ({ schedExRunning with currently_executing := ["s1"] })
      (by decide) (by decide)).2 (by decide)).1⟩
